import Mathlib

/-!
Formal model of the snake game core in src/snake.py (Tarkorr/pynake).

The per-tick state machine of the Snake class is embedded as pure Lean
functions over an explicit GameState record.  External pyxel calls are
modelled as follows:
- key polling (pyxel.btn / pyxel.btnp) becomes an Input record of booleans
  sampled for the tick;
- pyxel.quit only requests engine shutdown, so it becomes a boolean
  quitRequested in the tick result, computed before the reset branch runs,
  exactly as in the source;
- the random stream of randint pairs drawn inside generate_apple becomes an
  explicit list of sample points consumed left to right; running out of
  samples models a non-terminating rejection loop and surfaces as the error
  samplesExhausted;
- reading the attribute popped_point before any assignment would raise
  AttributeError in Python; the field is an Option Point holding none in
  that situation, and a read of none surfaces as the error attributeMissing;
- music and drawing calls have no effect on game state and are dropped.

Integer coordinates are Lean Int (Python ints never overflow), the score is
a Nat (it starts at 0 and is only incremented).
-/

namespace Pynake

/-- Coordinate pair, the namedtuple Point of the source.  Equality is value
equality, as for Python namedtuples. -/
structure Point where
  x : Int
  y : Int
deriving DecidableEq, Repr

/-- Grid width constant WIDTH = 40. -/
def WIDTH : Int := 40

/-- Grid height constant HEIGHT = 50. -/
def HEIGHT : Int := 50

/-- HEIGHT_SCORE = pyxel.FONT_HEIGHT; the pyxel engine fixes FONT_HEIGHT to 6. -/
def HEIGHT_SCORE : Int := 6

/-- The module constant UP = Point(0, -1). -/
def UP : Point := ⟨0, -1⟩

/-- The module constant DOWN = Point(0, 1). -/
def DOWN : Point := ⟨0, 1⟩

/-- The module constant RIGHT = Point(1, 0). -/
def RIGHT : Point := ⟨1, 0⟩

/-- The module constant LEFT = Point(-1, 0). -/
def LEFT : Point := ⟨-1, 0⟩

/-- The start coordinate START = Point(5, 5 + HEIGHT_SCORE). -/
def START : Point := ⟨5, 5 + HEIGHT_SCORE⟩

/-- Which of the four direction constant objects the direction attribute
refers to.  The source only ever assigns the direction attribute one of the
four module constants UP, DOWN, RIGHT, LEFT, so Python identity comparison
(the operator is / is not) between the attribute and a constant is exactly
equality on this four element type. -/
inductive Dir where
  | up
  | down
  | right
  | left
deriving DecidableEq, Repr

/-- The Point value of each direction constant object. -/
def Dir.toPoint : Dir → Point
  | .up => UP
  | .down => DOWN
  | .right => RIGHT
  | .left => LEFT

/-- Failure modes of a tick in the model: the random sample stream ran out
(the rejection loop in generate_apple would spin forever on those samples),
or the attribute popped_point was read before any assignment (Python would
raise AttributeError). -/
inductive GameError where
  | samplesExhausted
  | attributeMissing
deriving DecidableEq, Repr

/-- The key states sampled during one tick of update: the four held arrow
keys (pyxel.btn), the held quit key Q (pyxel.btn), and the just-pressed
reset key R and debug growth key T (pyxel.btnp). -/
structure Input where
  up : Bool
  down : Bool
  left : Bool
  right : Bool
  quit : Bool
  reset : Bool
  grow : Bool
deriving DecidableEq, Repr

/-- The mutable attributes of the Snake instance that the game logic reads
and writes.  The snake deque is a list, head first; appendleft is list cons,
pop removes the last element, append adds a last element. -/
structure GameState where
  direction : Dir
  snake : List Point
  death : Bool
  score : Nat
  apple : Point
  popped_point : Option Point
deriving DecidableEq, Repr

/-- Outcome of one call to update: the new state, whether pyxel.quit was
invoked this tick, and the random samples not yet consumed. -/
structure TickResult where
  state : GameState
  quitRequested : Bool
  samplesLeft : List Point
deriving DecidableEq, Repr

/-- Coordinate addition new_head = Point(old_head.x + direction.x,
old_head.y + direction.y) from update_snake. -/
def movePoint (p : Point) (d : Point) : Point :=
  ⟨p.x + d.x, p.y + d.y⟩

/-- The rejection loop of generate_apple: while the candidate is in the set
of snake pixels, draw the next random sample.  The samples are the
successive Point(randint(0, WIDTH - 1), randint(HEIGHT_SCORE + 1,
HEIGHT - 1)) values; exhausting them models a loop that never exits. -/
def appleLoop (snake_pixels : List Point) : List Point → Point → Except GameError (Point × List Point)
  | samples, cand =>
    if cand ∈ snake_pixels then
      match samples with
      | [] => .error .samplesExhausted
      | q :: rest => appleLoop snake_pixels rest q
    else .ok (cand, samples)

/-- generate_apple: the candidate starts at snake[0] (always a member of the
snake, so the loop always draws at least one sample) and the loop runs until
the candidate is off the snake.  The snake is never empty at any call site;
on [] the source would raise IndexError on snake[0]. -/
def generate_apple (samples : List Point) (snake : List Point) : Except GameError (Point × List Point) :=
  match snake with
  | [] => .error .samplesExhausted
  | head :: _ => appleLoop snake samples head

/-- reset: direction RIGHT, snake a single START cell, death flag cleared,
score zeroed, and a fresh apple from generate_apple.  The attribute
popped_point is not touched by reset, so it carries over from before
(none models the attribute never having been set). -/
def reset (samples : List Point) (popped : Option Point) : Except GameError (GameState × List Point) :=
  match generate_apple samples [START] with
  | .error e => .error e
  | .ok (a, rest) =>
      .ok ({ direction := Dir.right, snake := [START], death := false,
             score := 0, apple := a, popped_point := popped }, rest)

/-- update_direction: the four chained branches of the source, in order UP,
DOWN, LEFT, RIGHT; each branch needs its key held and the current direction
not identical to the opposite constant (the source compares with is not). -/
def update_direction (inp : Input) (d : Dir) : Dir :=
  if inp.up = true ∧ d ≠ Dir.down then Dir.up
  else if inp.down = true ∧ d ≠ Dir.up then Dir.down
  else if inp.left = true ∧ d ≠ Dir.right then Dir.left
  else if inp.right = true ∧ d ≠ Dir.left then Dir.right
  else d

/-- The same four chained branches written over Point values with value
equality instead of identity of the four constant objects. -/
def update_direction_value (inp : Input) (d : Point) : Point :=
  if inp.up = true ∧ d ≠ DOWN then UP
  else if inp.down = true ∧ d ≠ UP then DOWN
  else if inp.left = true ∧ d ≠ RIGHT then LEFT
  else if inp.right = true ∧ d ≠ LEFT then RIGHT
  else d

/-- update_snake: prepend the moved head, then pop the tail and remember it
in popped_point.  On an empty snake the source would raise IndexError on
snake[0]; the snake is never empty at any call site. -/
def update_snake (s : GameState) : GameState :=
  match s.snake with
  | [] => s
  | old_head :: rest =>
      let new_head := movePoint old_head s.direction.toPoint
      { s with snake := (new_head :: old_head :: rest).dropLast,
               popped_point := (new_head :: old_head :: rest).getLast? }

/-- death_event: set the death flag (the sound calls are external). -/
def death_event (s : GameState) : GameState :=
  { s with death := true }

/-- check_death: the head dies out of bounds (x < 0, y at or above the score
bar, x at or past WIDTH, y at or past HEIGHT), or when the snake holds a
duplicate coordinate, detected by comparing the length of the deque with the
cardinality of its set of elements. -/
def check_death (s : GameState) : GameState :=
  match s.snake with
  | [] => s
  | head :: _ =>
      if head.x < 0 ∨ head.y ≤ HEIGHT_SCORE ∨ head.x ≥ WIDTH ∨ head.y ≥ HEIGHT then
        death_event s
      else if s.snake.length ≠ s.snake.dedup.length then
        death_event s
      else s

/-- check_apple: when the head sits on the apple, bump the score, re-append
the popped tail cell, and place a fresh apple over the grown snake.  Reading
popped_point when it was never assigned would raise AttributeError. -/
def check_apple (samples : List Point) (s : GameState) : Except GameError (GameState × List Point) :=
  match s.snake with
  | [] => .ok (s, samples)
  | head :: _ =>
      if head = s.apple then
        match s.popped_point with
        | none => .error .attributeMissing
        | some p =>
            let snake2 := s.snake ++ [p]
            match generate_apple samples snake2 with
            | .error e => .error e
            | .ok (a, rest) =>
                .ok ({ s with score := s.score + 1, snake := snake2, apple := a }, rest)
      else .ok (s, samples)

/-- update: one tick.  While not dead, run direction update, movement, death
check and apple check in that order (the death flag was read once at the
top, so check_apple still runs on the tick that sets it).  Then the three
key branches: Q requests engine shutdown, R resets (keeping popped_point),
T appends the remembered popped_point and bumps the score, dead or alive. -/
def update (inp : Input) (samples : List Point) (s : GameState) : Except GameError TickResult :=
  let core : Except GameError (GameState × List Point) :=
    if s.death = true then .ok (s, samples)
    else
      check_apple samples (check_death (update_snake { s with direction := update_direction inp s.direction }))
  match core with
  | .error e => .error e
  | .ok (s1, samples1) =>
      let quitRequested := inp.quit
      let afterReset : Except GameError (GameState × List Point) :=
        if inp.reset = true then reset samples1 s1.popped_point else .ok (s1, samples1)
      match afterReset with
      | .error e => .error e
      | .ok (s2, samples2) =>
          if inp.grow = true then
            match s2.popped_point with
            | none => .error .attributeMissing
            | some p =>
                .ok ⟨{ s2 with snake := s2.snake ++ [p], score := s2.score + 1 }, quitRequested, samples2⟩
          else .ok ⟨s2, quitRequested, samples2⟩

/-- The fixed precedence order of the four direction branches in
update_direction. -/
def dirOrder : List Dir := [Dir.up, Dir.down, Dir.left, Dir.right]

/-- Whether the arrow key of a given direction is held this tick. -/
def heldDir (inp : Input) : Dir → Bool
  | .up => inp.up
  | .down => inp.down
  | .left => inp.left
  | .right => inp.right

/-- The exact opposite of a direction. -/
def opposite : Dir → Dir
  | .up => .down
  | .down => .up
  | .left => .right
  | .right => .left

/-- Modelled from the claim wording for comparison with update_direction:
scan the held directions in the fixed precedence order Up, Down, Left,
Right and accept the first one that is not the exact opposite of the
current direction; when none qualifies the previous direction persists. -/
def specDirectionRule (inp : Input) (d : Dir) : Dir :=
  ((dirOrder.filter (fun c => heldDir inp c && c ≠ opposite d)).head?).getD d

/-- States reachable from a successful reset by ticks taken while alive
with the reset command not asserted.  Ticks asserting reset are deliberately
excluded from the step case: on such a tick the debug-growth branch runs
after the mid-tick reset and re-appends a coordinate popped before that
reset, which can coincide with the freshly placed apple (the placement only
avoided the start cell), so the apple-off-body invariant does not survive
them. -/
inductive AliveReachable : GameState → Prop
  | start (samples : List Point) (popped : Option Point) (s : GameState) (rest : List Point) :
      reset samples popped = .ok (s, rest) → AliveReachable s
  | step (s : GameState) (inp : Input) (samples : List Point) (r : TickResult) :
      AliveReachable s → s.death = false → inp.reset = false →
      update inp samples s = .ok r → AliveReachable r.state

/-- States reachable from a successful reset by any succession of
successful ticks, with arbitrary inputs. -/
inductive Reachable : GameState → Prop
  | start (samples : List Point) (popped : Option Point) (s : GameState) (rest : List Point) :
      reset samples popped = .ok (s, rest) → Reachable s
  | step (s : GameState) (inp : Input) (samples : List Point) (r : TickResult) :
      Reachable s → update inp samples s = .ok r → Reachable r.state

/-! ### Helper lemmas -/

/-- The duplicate test of check_death (deque length versus set cardinality)
is exactly the negation of Nodup. -/
lemma length_dedup_eq_iff (l : List Point) : l.dedup.length = l.length ↔ l.Nodup := by
  constructor
  · intro h
    exact List.dedup_eq_self.mp ((List.dedup_sublist l).eq_of_length h)
  · intro h
    rw [List.dedup_eq_self.mpr h]

lemma mem_of_getLast?_eq : ∀ (l : List Point) (a : Point), l.getLast? = some a → a ∈ l
  | [], a, h => by simp at h
  | [b], a, h => by
      simp [List.getLast?] at h
      simp [h]
  | b :: c :: t, a, h => by
      rw [List.getLast?_cons_cons] at h
      exact List.mem_cons_of_mem b (mem_of_getLast?_eq (c :: t) a h)

lemma appleLoop_mem_step (pix rest : List Point) (cand nxt : Point) (h : cand ∈ pix) :
    appleLoop pix (nxt :: rest) cand = appleLoop pix rest nxt := by
  conv_lhs => unfold appleLoop
  rw [if_pos h]

lemma appleLoop_not_mem (pix samples : List Point) (cand : Point) (h : cand ∉ pix) :
    appleLoop pix samples cand = .ok (cand, samples) := by
  unfold appleLoop
  rw [if_neg h]

lemma appleLoop_ok_spec (pix : List Point) (samples : List Point) :
    ∀ (cand a : Point) (rest : List Point),
      appleLoop pix samples cand = .ok (a, rest) → a ∉ pix ∧ (a = cand ∨ a ∈ samples) := by
  induction samples with
  | nil =>
      intro cand a rest h
      unfold appleLoop at h
      by_cases hc : cand ∈ pix
      · simp [hc] at h
      · simp [hc] at h
        exact ⟨h.1 ▸ hc, Or.inl h.1.symm⟩
  | cons q rest2 ih =>
      intro cand a rest h
      unfold appleLoop at h
      by_cases hc : cand ∈ pix
      · simp only [if_pos hc] at h
        obtain ⟨hnot, hor⟩ := ih q a rest h
        refine ⟨hnot, Or.inr ?_⟩
        cases hor with
        | inl he => simp [he]
        | inr hm => simp [hm]
      · simp [hc] at h
        exact ⟨h.1 ▸ hc, Or.inl h.1.symm⟩

lemma appleLoop_error_spec (pix : List Point) (samples : List Point) :
    ∀ (cand : Point) (e : GameError),
      appleLoop pix samples cand = .error e → e = .samplesExhausted := by
  induction samples with
  | nil =>
      intro cand e h
      unfold appleLoop at h
      by_cases hc : cand ∈ pix <;> simp [hc] at h
      exact h.symm
  | cons q rest2 ih =>
      intro cand e h
      unfold appleLoop at h
      by_cases hc : cand ∈ pix
      · simp only [if_pos hc] at h
        exact ih q e h
      · simp [hc] at h

lemma generate_apple_ok_spec (samples : List Point) (hd : Point) (tl : List Point)
    (a : Point) (rest : List Point)
    (h : generate_apple samples (hd :: tl) = .ok (a, rest)) :
    a ∉ hd :: tl ∧ a ∈ samples := by
  unfold generate_apple at h
  obtain ⟨hnot, hor⟩ := appleLoop_ok_spec (hd :: tl) samples hd a rest h
  refine ⟨hnot, ?_⟩
  cases hor with
  | inl he => exact absurd (he ▸ List.mem_cons_self hd tl) hnot
  | inr hm => exact hm

lemma generate_apple_error_spec (samples snake : List Point) (e : GameError)
    (h : generate_apple samples snake = .error e) : e = .samplesExhausted := by
  unfold generate_apple at h
  cases snake with
  | nil => simpa using h.symm
  | cons hd tl => exact appleLoop_error_spec (hd :: tl) samples hd e h

lemma reset_ok_spec (samples : List Point) (popped : Option Point)
    (st : GameState) (rest : List Point) (h : reset samples popped = .ok (st, rest)) :
    st.direction = Dir.right ∧ st.snake = [START] ∧ st.death = false ∧
      st.score = 0 ∧ st.apple ∉ [START] ∧ st.popped_point = popped := by
  unfold reset at h
  rcases hg : generate_apple samples [START] with e | ⟨a, rest2⟩ <;> rw [hg] at h
  · simp at h
  · simp only [Except.ok.injEq, Prod.mk.injEq] at h
    obtain ⟨hst, -⟩ := h
    obtain ⟨hnot, -⟩ := generate_apple_ok_spec samples START [] a rest2 hg
    subst hst
    exact ⟨rfl, rfl, rfl, rfl, hnot, rfl⟩

lemma reset_error_spec (samples : List Point) (popped : Option Point) (e : GameError)
    (h : reset samples popped = .error e) : e = .samplesExhausted := by
  unfold reset at h
  rcases hg : generate_apple samples [START] with e2 | ⟨a, rest2⟩ <;> rw [hg] at h
  · simp only [Except.error.injEq] at h
    exact h ▸ generate_apple_error_spec samples [START] e2 hg
  · simp at h

lemma update_snake_cons (s : GameState) (hd : Point) (tl : List Point) (hs : s.snake = hd :: tl) :
    update_snake s =
      { s with snake := movePoint hd s.direction.toPoint :: (hd :: tl).dropLast,
               popped_point := (hd :: tl).getLast? } := by
  unfold update_snake
  rw [hs]
  dsimp only
  rw [List.getLast?_cons_cons, List.dropLast_cons₂]

lemma check_death_other_fields (s : GameState) :
    (check_death s).snake = s.snake ∧ (check_death s).apple = s.apple ∧
      (check_death s).score = s.score ∧ (check_death s).popped_point = s.popped_point ∧
      (check_death s).direction = s.direction := by
  obtain ⟨d0, sn, de, sc, ap, pp⟩ := s
  unfold check_death death_event
  cases sn with
  | nil => exact ⟨rfl, rfl, rfl, rfl, rfl⟩
  | cons h0 t0 =>
      dsimp only
      split_ifs <;> exact ⟨rfl, rfl, rfl, rfl, rfl⟩

lemma check_death_death_iff (s : GameState) (hd : Point) (tl : List Point)
    (hs : s.snake = hd :: tl) :
    ((check_death s).death = true ↔
      (s.death = true ∨ hd.x < 0 ∨ hd.y ≤ HEIGHT_SCORE ∨ hd.x ≥ WIDTH ∨
        hd.y ≥ HEIGHT ∨ ¬ (hd :: tl).Nodup)) := by
  obtain ⟨d0, sn, de, sc, ap, pp⟩ := s
  simp only at hs
  subst hs
  unfold check_death death_event
  dsimp only
  split_ifs with h1 h2
  · simp only [eq_self_iff_true, true_iff]
    right
    tauto
  · simp only [eq_self_iff_true, true_iff]
    have hdup : ¬ (hd :: tl).Nodup := by
      intro hnd
      exact h2 ((length_dedup_eq_iff (hd :: tl)).mpr hnd).symm
    tauto
  · have hnd : (hd :: tl).Nodup := by
      by_contra hnd
      exact h2 (by
        intro hlen
        exact hnd ((length_dedup_eq_iff (hd :: tl)).mp hlen.symm))
    constructor
    · intro hde
      exact Or.inl hde
    · intro hor
      rcases hor with hde | hx | hy | hx2 | hy2 | hdup
      · exact hde
      · exact absurd (Or.inl hx) h1
      · exact absurd (Or.inr (Or.inl hy)) h1
      · exact absurd (Or.inr (Or.inr (Or.inl hx2))) h1
      · exact absurd (Or.inr (Or.inr (Or.inr hy2))) h1
      · exact absurd hnd hdup

lemma check_death_eq_record (s : GameState) :
    check_death s = { s with death := (check_death s).death } := by
  obtain ⟨d0, sn, de, sc, ap, pp⟩ := s
  unfold check_death death_event
  cases sn with
  | nil => rfl
  | cons h0 t0 =>
      dsimp only
      split_ifs <;> rfl

lemma check_apple_not_eaten (samples : List Point) (s : GameState) (hd : Point)
    (tl : List Point) (hs : s.snake = hd :: tl) (hne : hd ≠ s.apple) :
    check_apple samples s = .ok (s, samples) := by
  unfold check_apple
  rw [hs]
  dsimp only
  rw [if_neg hne]

lemma check_apple_eaten_ok (samples : List Point) (s : GameState) (hd : Point)
    (tl : List Point) (q a : Point) (rest : List Point)
    (hs : s.snake = hd :: tl) (heq : hd = s.apple) (hp : s.popped_point = some q)
    (hg : generate_apple samples (s.snake ++ [q]) = .ok (a, rest)) :
    check_apple samples s =
      .ok ({ s with score := s.score + 1, snake := s.snake ++ [q], apple := a }, rest) := by
  rw [hs] at hg
  unfold check_apple
  rw [hs]
  dsimp only
  rw [if_pos heq, hp]
  dsimp only
  rw [hg]

lemma check_apple_eaten_error (samples : List Point) (s : GameState) (hd : Point)
    (tl : List Point) (q : Point) (e : GameError)
    (hs : s.snake = hd :: tl) (heq : hd = s.apple) (hp : s.popped_point = some q)
    (hg : generate_apple samples (s.snake ++ [q]) = .error e) :
    check_apple samples s = .error e := by
  rw [hs] at hg
  unfold check_apple
  rw [hs]
  dsimp only
  rw [if_pos heq, hp]
  dsimp only
  rw [hg]

/-! ### Characterization of the movement-and-checks core of a tick -/

lemma core_not_eaten (inp : Input) (samples : List Point) (s : GameState)
    (hd q : Point) (tl : List Point) (b : Bool)
    (hs : s.snake = hd :: tl)
    (hq : (hd :: tl).getLast? = some q)
    (hne : movePoint hd (update_direction inp s.direction).toPoint ≠ s.apple)
    (hb : (check_death (update_snake { s with direction := update_direction inp s.direction })).death = b) :
    check_apple samples (check_death (update_snake { s with direction := update_direction inp s.direction })) =
      .ok ({ direction := update_direction inp s.direction,
             snake := movePoint hd (update_direction inp s.direction).toPoint :: (hd :: tl).dropLast,
             death := b, score := s.score, apple := s.apple,
             popped_point := some q }, samples) := by
  obtain ⟨d0, sn, de, sc, ap, pp⟩ := s
  dsimp only at hs hne hb ⊢
  subst hs
  rw [update_snake_cons ⟨update_direction inp d0, hd :: tl, de, sc, ap, pp⟩ hd tl rfl] at hb ⊢
  dsimp only at hb ⊢
  rw [check_death_eq_record ⟨update_direction inp d0,
    movePoint hd (update_direction inp d0).toPoint :: (hd :: tl).dropLast, de, sc, ap,
    (hd :: tl).getLast?⟩]
  dsimp only
  rw [hb]
  rw [check_apple_not_eaten samples ⟨update_direction inp d0,
    movePoint hd (update_direction inp d0).toPoint :: (hd :: tl).dropLast, b, sc, ap,
    (hd :: tl).getLast?⟩ (movePoint hd (update_direction inp d0).toPoint)
    ((hd :: tl).dropLast) rfl hne]
  rw [hq]

lemma core_eaten_ok (inp : Input) (samples : List Point) (s : GameState)
    (hd q a : Point) (tl rest : List Point) (b : Bool)
    (hs : s.snake = hd :: tl)
    (hq : (hd :: tl).getLast? = some q)
    (heq : movePoint hd (update_direction inp s.direction).toPoint = s.apple)
    (hb : (check_death (update_snake { s with direction := update_direction inp s.direction })).death = b)
    (hg : generate_apple samples
        ((movePoint hd (update_direction inp s.direction).toPoint :: (hd :: tl).dropLast) ++ [q]) = .ok (a, rest)) :
    check_apple samples (check_death (update_snake { s with direction := update_direction inp s.direction })) =
      .ok ({ direction := update_direction inp s.direction,
             snake := (movePoint hd (update_direction inp s.direction).toPoint :: (hd :: tl).dropLast) ++ [q],
             death := b, score := s.score + 1, apple := a,
             popped_point := some q }, rest) := by
  obtain ⟨d0, sn, de, sc, ap, pp⟩ := s
  dsimp only at hs heq hb hg ⊢
  subst hs
  rw [update_snake_cons ⟨update_direction inp d0, hd :: tl, de, sc, ap, pp⟩ hd tl rfl] at hb ⊢
  dsimp only at hb ⊢
  rw [check_death_eq_record ⟨update_direction inp d0,
    movePoint hd (update_direction inp d0).toPoint :: (hd :: tl).dropLast, de, sc, ap,
    (hd :: tl).getLast?⟩]
  dsimp only
  rw [hb]
  rw [check_apple_eaten_ok samples ⟨update_direction inp d0,
    movePoint hd (update_direction inp d0).toPoint :: (hd :: tl).dropLast, b, sc, ap,
    (hd :: tl).getLast?⟩ (movePoint hd (update_direction inp d0).toPoint)
    ((hd :: tl).dropLast) q a rest rfl heq (by rw [hq]) hg]
  rw [hq]

lemma core_eaten_error (inp : Input) (samples : List Point) (s : GameState)
    (hd q : Point) (tl : List Point) (e : GameError)
    (hs : s.snake = hd :: tl)
    (hq : (hd :: tl).getLast? = some q)
    (heq : movePoint hd (update_direction inp s.direction).toPoint = s.apple)
    (hg : generate_apple samples
        ((movePoint hd (update_direction inp s.direction).toPoint :: (hd :: tl).dropLast) ++ [q]) = .error e) :
    check_apple samples (check_death (update_snake { s with direction := update_direction inp s.direction })) = .error e := by
  obtain ⟨d0, sn, de, sc, ap, pp⟩ := s
  dsimp only at hs heq hg ⊢
  subst hs
  rw [update_snake_cons ⟨update_direction inp d0, hd :: tl, de, sc, ap, pp⟩ hd tl rfl]
  dsimp only
  rw [check_death_eq_record ⟨update_direction inp d0,
    movePoint hd (update_direction inp d0).toPoint :: (hd :: tl).dropLast, de, sc, ap,
    (hd :: tl).getLast?⟩]
  dsimp only
  exact check_apple_eaten_error samples ⟨update_direction inp d0,
    movePoint hd (update_direction inp d0).toPoint :: (hd :: tl).dropLast,
    (check_death ⟨update_direction inp d0,
      movePoint hd (update_direction inp d0).toPoint :: (hd :: tl).dropLast, de, sc, ap,
      (hd :: tl).getLast?⟩).death, sc, ap, (hd :: tl).getLast?⟩
    (movePoint hd (update_direction inp d0).toPoint)
    ((hd :: tl).dropLast) q e rfl heq (by rw [hq]) hg

/-! ### Claim theorems: direction logic -/

/-- C5: for every tick while alive, the requested direction is applied only
if it is not the exact opposite of the current direction, otherwise the
previous direction persists; at most one direction change is accepted per
tick, and with several directional inputs held the accepted one is the
first in the fixed precedence order Up, Down, Left, Right that passes the
opposite-direction check.  Formalised as: update_direction computes exactly
the first-accepted rule specDirectionRule. -/
theorem C5_direction_precedence (inp : Input) (d : Dir) :
    update_direction inp d = specDirectionRule inp d := by
  obtain ⟨u, dn, l, r, q, rs, g⟩ := inp
  cases u <;> cases dn <;> cases l <;> cases r <;> cases d <;> rfl

/-- C8: the direction update implemented with identity comparison against
the four direction constant objects (update_direction over Dir) is
behaviorally identical to the one implemented with value equality over the
four-element direction set (update_direction_value over Point): for every
current direction among the four constants and every combination of held
inputs both produce the same resulting direction. -/
theorem C8_identity_vs_value_equality (inp : Input) (d : Dir) :
    (update_direction inp d).toPoint = update_direction_value inp d.toPoint := by
  obtain ⟨u, dn, l, r, q, rs, g⟩ := inp
  cases u <;> cases dn <;> cases l <;> cases r <;> cases d <;> rfl

/-! ### Unfolding lemmas for update -/

lemma update_core_error (inp : Input) (samples : List Point) (s : GameState) (e : GameError)
    (halive : s.death = false)
    (hcore : check_apple samples (check_death (update_snake
        { s with direction := update_direction inp s.direction })) = .error e) :
    update inp samples s = .error e := by
  unfold update
  rw [if_neg (by rw [halive]; simp), hcore]

lemma update_of_core_ok (inp : Input) (samples : List Point) (s s1 : GameState)
    (samples1 : List Point)
    (halive : s.death = false) (hreset : inp.reset = false)
    (hcore : check_apple samples (check_death (update_snake
        { s with direction := update_direction inp s.direction })) = .ok (s1, samples1)) :
    update inp samples s =
      (if inp.grow = true then
        match s1.popped_point with
        | none => .error .attributeMissing
        | some p =>
            .ok ⟨{ s1 with snake := s1.snake ++ [p], score := s1.score + 1 }, inp.quit, samples1⟩
      else .ok ⟨s1, inp.quit, samples1⟩) := by
  unfold update
  rw [if_neg (by rw [halive]; simp), hcore]
  dsimp only
  rw [if_neg (by rw [hreset]; simp)]

lemma update_of_core_ok_reset (inp : Input) (samples : List Point) (s s1 s2 : GameState)
    (samples1 samples2 : List Point)
    (halive : s.death = false) (hreset : inp.reset = true)
    (hcore : check_apple samples (check_death (update_snake
        { s with direction := update_direction inp s.direction })) = .ok (s1, samples1))
    (hres : reset samples1 s1.popped_point = .ok (s2, samples2)) :
    update inp samples s =
      (if inp.grow = true then
        match s2.popped_point with
        | none => .error .attributeMissing
        | some p =>
            .ok ⟨{ s2 with snake := s2.snake ++ [p], score := s2.score + 1 }, inp.quit, samples2⟩
      else .ok ⟨s2, inp.quit, samples2⟩) := by
  unfold update
  rw [if_neg (by rw [halive]; simp), hcore]
  dsimp only
  rw [if_pos hreset, hres]

lemma update_of_core_ok_reset_error (inp : Input) (samples : List Point) (s s1 : GameState)
    (samples1 : List Point) (e : GameError)
    (halive : s.death = false) (hreset : inp.reset = true)
    (hcore : check_apple samples (check_death (update_snake
        { s with direction := update_direction inp s.direction })) = .ok (s1, samples1))
    (hres : reset samples1 s1.popped_point = .error e) :
    update inp samples s = .error e := by
  unfold update
  rw [if_neg (by rw [halive]; simp), hcore]
  dsimp only
  rw [if_pos hreset, hres]

lemma update_dead (inp : Input) (samples : List Point) (s : GameState)
    (hdead : s.death = true) (hreset : inp.reset = false) :
    update inp samples s =
      (if inp.grow = true then
        match s.popped_point with
        | none => .error .attributeMissing
        | some p =>
            .ok ⟨{ s with snake := s.snake ++ [p], score := s.score + 1 }, inp.quit, samples⟩
      else .ok ⟨s, inp.quit, samples⟩) := by
  unfold update
  rw [if_pos hdead]
  dsimp only
  rw [if_neg (by rw [hreset]; simp)]

lemma update_dead_reset (inp : Input) (samples : List Point) (s s2 : GameState)
    (samples2 : List Point)
    (hdead : s.death = true) (hreset : inp.reset = true)
    (hres : reset samples s.popped_point = .ok (s2, samples2)) :
    update inp samples s =
      (if inp.grow = true then
        match s2.popped_point with
        | none => .error .attributeMissing
        | some p =>
            .ok ⟨{ s2 with snake := s2.snake ++ [p], score := s2.score + 1 }, inp.quit, samples2⟩
      else .ok ⟨s2, inp.quit, samples2⟩) := by
  unfold update
  rw [if_pos hdead]
  dsimp only
  rw [if_pos hreset, hres]

lemma update_dead_reset_error (inp : Input) (samples : List Point) (s : GameState)
    (e : GameError)
    (hdead : s.death = true) (hreset : inp.reset = true)
    (hres : reset samples s.popped_point = .error e) :
    update inp samples s = .error e := by
  unfold update
  rw [if_pos hdead]
  dsimp only
  rw [if_pos hreset, hres]

lemma bool_eq_false {b : Bool} (h : ¬ b = true) : b = false := by
  cases b
  · rfl
  · exact absurd rfl h

/-- What the key branches after the movement core do with the tick, given
the core produced state s1 with a defined popped_point. -/
lemma update_after_core (inp : Input) (samples samples1 : List Point) (s s1 : GameState)
    (q : Point) (r : TickResult)
    (halive : s.death = false)
    (hcore : check_apple samples (check_death (update_snake
        { s with direction := update_direction inp s.direction })) = .ok (s1, samples1))
    (hpp : s1.popped_point = some q)
    (hok : update inp samples s = .ok r) :
    (inp.reset = false ∧
       ((inp.grow = false ∧ r = ⟨s1, inp.quit, samples1⟩) ∨
        (inp.grow = true ∧
          r = ⟨{ s1 with snake := s1.snake ++ [q], score := s1.score + 1 }, inp.quit, samples1⟩))) ∨
    (∃ s2 rest3, inp.reset = true ∧ reset samples1 (some q) = .ok (s2, rest3) ∧
       ((inp.grow = false ∧ r = ⟨s2, inp.quit, rest3⟩) ∨
        (inp.grow = true ∧
          r = ⟨{ s2 with snake := s2.snake ++ [q], score := s2.score + 1 }, inp.quit, rest3⟩))) := by
  by_cases hreset : inp.reset = true
  · rcases hres : reset samples1 (some q) with e | ⟨s2, rest3⟩
    · have herr := update_of_core_ok_reset_error inp samples s s1 samples1 e halive hreset
        hcore (by rw [hpp]; exact hres)
      rw [herr] at hok
      exact absurd hok (by simp)
    · have hupd := update_of_core_ok_reset inp samples s s1 s2 samples1 rest3 halive hreset
        hcore (by rw [hpp]; exact hres)
      rw [hupd] at hok
      right
      obtain ⟨-, -, -, -, -, hpp2⟩ := reset_ok_spec samples1 (some q) s2 rest3 hres
      refine ⟨s2, rest3, hreset, rfl, ?_⟩
      by_cases hgrow : inp.grow = true
      · rw [if_pos hgrow, hpp2] at hok
        dsimp only at hok
        refine Or.inr ⟨hgrow, ?_⟩
        rw [hpp2]
        exact (Except.ok.inj hok).symm
      · rw [if_neg hgrow] at hok
        exact Or.inl ⟨bool_eq_false hgrow, (Except.ok.inj hok).symm⟩
  · have hreset2 : inp.reset = false := bool_eq_false hreset
    have hupd := update_of_core_ok inp samples s s1 samples1 halive hreset2 hcore
    rw [hupd] at hok
    left
    refine ⟨hreset2, ?_⟩
    by_cases hgrow : inp.grow = true
    · rw [if_pos hgrow, hpp] at hok
      dsimp only at hok
      refine Or.inr ⟨hgrow, ?_⟩
      rw [hpp]
      exact (Except.ok.inj hok).symm
    · rw [if_neg hgrow] at hok
      exact Or.inl ⟨bool_eq_false hgrow, (Except.ok.inj hok).symm⟩

/-- Full case analysis of one tick taken from an alive state: the core
either leaves the apple alone or eats it and replaces it, then the reset
and debug-growth branches apply. -/
lemma update_alive_cases (s : GameState) (inp : Input) (samples : List Point) (r : TickResult)
    (hd q : Point) (tl : List Point)
    (halive : s.death = false) (hs : s.snake = hd :: tl) (hq : (hd :: tl).getLast? = some q)
    (hok : update inp samples s = .ok r) :
    ∃ (s1 : GameState) (samples1 : List Point),
      ((movePoint hd (update_direction inp s.direction).toPoint ≠ s.apple ∧
          s1 = { direction := update_direction inp s.direction,
                 snake := movePoint hd (update_direction inp s.direction).toPoint :: (hd :: tl).dropLast,
                 death := (check_death (update_snake
                   { s with direction := update_direction inp s.direction })).death,
                 score := s.score, apple := s.apple, popped_point := some q } ∧
          samples1 = samples) ∨
       (∃ a rest2, movePoint hd (update_direction inp s.direction).toPoint = s.apple ∧
          generate_apple samples
            ((movePoint hd (update_direction inp s.direction).toPoint :: (hd :: tl).dropLast) ++ [q]) =
            .ok (a, rest2) ∧
          s1 = { direction := update_direction inp s.direction,
                 snake := (movePoint hd (update_direction inp s.direction).toPoint :: (hd :: tl).dropLast) ++ [q],
                 death := (check_death (update_snake
                   { s with direction := update_direction inp s.direction })).death,
                 score := s.score + 1, apple := a, popped_point := some q } ∧
          samples1 = rest2)) ∧
      s1.popped_point = some q ∧
      ((inp.reset = false ∧
         ((inp.grow = false ∧ r = ⟨s1, inp.quit, samples1⟩) ∨
          (inp.grow = true ∧
            r = ⟨{ s1 with snake := s1.snake ++ [q], score := s1.score + 1 }, inp.quit, samples1⟩))) ∨
       (∃ s2 rest3, inp.reset = true ∧ reset samples1 (some q) = .ok (s2, rest3) ∧
         ((inp.grow = false ∧ r = ⟨s2, inp.quit, rest3⟩) ∨
          (inp.grow = true ∧
            r = ⟨{ s2 with snake := s2.snake ++ [q], score := s2.score + 1 }, inp.quit, rest3⟩)))) := by
  by_cases heat : movePoint hd (update_direction inp s.direction).toPoint = s.apple
  · rcases hg : generate_apple samples
        ((movePoint hd (update_direction inp s.direction).toPoint :: (hd :: tl).dropLast) ++ [q]) with
      e | ⟨a, rest2⟩
    · have hcoree := core_eaten_error inp samples s hd q tl e hs hq heat hg
      have herr := update_core_error inp samples s e halive hcoree
      rw [herr] at hok
      exact absurd hok (by simp)
    · have hcore := core_eaten_ok inp samples s hd q a tl rest2 _ hs hq heat rfl hg
      refine ⟨_, rest2, Or.inr ⟨a, rest2, heat, rfl, rfl, rfl⟩, rfl, ?_⟩
      exact update_after_core inp samples rest2 s _ q r halive hcore rfl hok
  · have hcore := core_not_eaten inp samples s hd q tl _ hs hq heat rfl
    refine ⟨_, samples, Or.inl ⟨heat, rfl, rfl⟩, rfl, ?_⟩
    exact update_after_core inp samples samples s _ q r halive hcore rfl hok

/-! ### Claim theorems: death condition -/

/-- C1: for every tick evaluated while alive, after the movement step the
game transitions to Dead if and only if the new head lies outside the
playable rectangle (head.x below 0, head.x at or past WIDTH, head.y at or
below HEIGHT_SCORE, head.y at or past HEIGHT) or the body contains two
equal coordinates; in particular a head with y at or below HEIGHT_SCORE
(inside the score-bar band) causes death. -/
theorem C1_death_transition (s : GameState) (hd : Point) (tl : List Point)
    (halive : s.death = false) (hs : s.snake = hd :: tl) :
    (((check_death (update_snake s)).death = true) ↔
      ((movePoint hd s.direction.toPoint).x < 0 ∨
       (movePoint hd s.direction.toPoint).x ≥ WIDTH ∨
       (movePoint hd s.direction.toPoint).y ≤ HEIGHT_SCORE ∨
       (movePoint hd s.direction.toPoint).y ≥ HEIGHT ∨
       ¬ (update_snake s).snake.Nodup)) ∧
    ((movePoint hd s.direction.toPoint).y ≤ HEIGHT_SCORE →
      (check_death (update_snake s)).death = true) := by
  have hm := update_snake_cons s hd tl hs
  have hsnake1 : (update_snake s).snake =
      movePoint hd s.direction.toPoint :: (hd :: tl).dropLast := by
    rw [hm]
  have hdeath1 : (update_snake s).death = false := by
    rw [hm]
    exact halive
  have hiff := check_death_death_iff (update_snake s)
    (movePoint hd s.direction.toPoint) ((hd :: tl).dropLast) hsnake1
  rw [hdeath1] at hiff
  simp only [Bool.false_eq_true, false_or] at hiff
  rw [← hsnake1] at hiff
  constructor
  · rw [hiff]
    tauto
  · intro hy
    rw [hiff]
    tauto

/-- Witness for C1 at a concrete state: the snake is the single cell
(0, 11) heading left, so the new head (-1, 11) is out of bounds. -/
theorem C1_death_transition_witness :
    (((check_death (update_snake ⟨Dir.left, [⟨0, 11⟩], false, 0, ⟨20, 20⟩, none⟩)).death = true) ↔
      ((movePoint ⟨0, 11⟩ (Dir.left).toPoint).x < 0 ∨
       (movePoint ⟨0, 11⟩ (Dir.left).toPoint).x ≥ WIDTH ∨
       (movePoint ⟨0, 11⟩ (Dir.left).toPoint).y ≤ HEIGHT_SCORE ∨
       (movePoint ⟨0, 11⟩ (Dir.left).toPoint).y ≥ HEIGHT ∨
       ¬ (update_snake ⟨Dir.left, [⟨0, 11⟩], false, 0, ⟨20, 20⟩, none⟩).snake.Nodup)) ∧
    ((movePoint ⟨0, 11⟩ (Dir.left).toPoint).y ≤ HEIGHT_SCORE →
      (check_death (update_snake ⟨Dir.left, [⟨0, 11⟩], false, 0, ⟨20, 20⟩, none⟩)).death = true) :=
  C1_death_transition ⟨Dir.left, [⟨0, 11⟩], false, 0, ⟨20, 20⟩, none⟩ ⟨0, 11⟩ [] rfl rfl

/-! ### Claim theorems: body length -/

/-- C2 counterexample: the claim says the length after a tick equals the
length before, except that an eaten apple or a fired debug-growth command
makes it increase by exactly 1.  But both can happen on the same tick: from
the concrete alive state below (length 1, apple straight ahead) a tick that
also presses T yields length 3, an increase of 2. -/
theorem C2_counterexample :
    update ⟨false, false, false, false, false, false, true⟩ [⟨20, 20⟩]
        ⟨Dir.right, [⟨5, 11⟩], false, 0, ⟨6, 11⟩, some ⟨9, 9⟩⟩ =
      .ok ⟨⟨Dir.right, [⟨6, 11⟩, ⟨5, 11⟩, ⟨5, 11⟩], false, 2, ⟨20, 20⟩, some ⟨5, 11⟩⟩, false, []⟩ ∧
    ([(⟨6, 11⟩ : Point), ⟨5, 11⟩, ⟨5, 11⟩]).length ≠ ([(⟨5, 11⟩ : Point)]).length + 1 :=
  ⟨rfl, by decide⟩

/-- C2 amended: for every tick taken from an alive state on which the reset
command is not asserted, the body length after the tick equals the length
before it, plus 1 if the apple was eaten on that tick, plus another 1 if
the debug-growth command fired on that tick (the two increments combine
when both happen). -/
theorem C2_length_change (s : GameState) (inp : Input) (samples : List Point)
    (hd : Point) (tl : List Point) (r : TickResult)
    (halive : s.death = false) (hs : s.snake = hd :: tl) (hreset : inp.reset = false)
    (hok : update inp samples s = .ok r) :
    r.state.snake.length = s.snake.length
      + (if movePoint hd (update_direction inp s.direction).toPoint = s.apple then 1 else 0)
      + (if inp.grow = true then 1 else 0) := by
  obtain ⟨q, hq⟩ := Option.isSome_iff_exists.mp
    (List.getLast?_isSome.mpr (List.cons_ne_nil hd tl))
  obtain ⟨s1, samples1, hcases, hpp, hpost⟩ :=
    update_alive_cases s inp samples r hd q tl halive hs hq hok
  rcases hpost with ⟨-, hgr⟩ | ⟨s2, rest3, hrt, -⟩
  · rcases hcases with ⟨heat, hs1, -⟩ | ⟨a, rest2, heat, -, hs1, -⟩
    · rcases hgr with ⟨hgf, hr⟩ | ⟨hgt, hr⟩
      · subst hs1; subst hr
        simp [hs, heat, hgf, List.length_dropLast]
      · subst hs1; subst hr
        simp [hs, heat, hgt, List.length_dropLast]
    · rcases hgr with ⟨hgf, hr⟩ | ⟨hgt, hr⟩
      · subst hs1; subst hr
        simp [hs, heat, hgf, List.length_dropLast]
      · subst hs1; subst hr
        simp [hs, heat, hgt, List.length_dropLast]
  · rw [hreset] at hrt
    cases hrt

/-- Witness for C2 amended at a concrete plain tick: no apple, no keys, the
length stays 1. -/
theorem C2_length_change_witness :
    (TickResult.mk ⟨Dir.right, [⟨6, 11⟩], false, 0, ⟨20, 20⟩, some ⟨5, 11⟩⟩ false []).state.snake.length =
      ([(⟨5, 11⟩ : Point)]).length
        + (if movePoint ⟨5, 11⟩ (update_direction
            ⟨false, false, false, false, false, false, false⟩ Dir.right).toPoint = (⟨20, 20⟩ : Point)
           then 1 else 0)
        + (if (⟨false, false, false, false, false, false, false⟩ : Input).grow = true then 1 else 0) :=
  C2_length_change ⟨Dir.right, [⟨5, 11⟩], false, 0, ⟨20, 20⟩, none⟩
    ⟨false, false, false, false, false, false, false⟩ [] ⟨5, 11⟩ []
    ⟨⟨Dir.right, [⟨6, 11⟩], false, 0, ⟨20, 20⟩, some ⟨5, 11⟩⟩, false, []⟩
    rfl rfl rfl rfl

/-! ### Claim theorems: fatal tick leaves score and apple unchanged -/

/-- C3: for every tick on which the move is fatal — the new head is out of
bounds or coincides with a remaining body coordinate — the tick transitions
to Dead and the score and the apple coordinate are unchanged: an apple
cannot be eaten on the same tick as a fatal collision.  The hypotheses are
the state invariants of reachable alive states (duplicate-free body, apple
off the body and inside the playable rectangle) plus the orthogonal reset
and debug-growth commands not being asserted on the tick. -/
theorem C3_fatal_tick (s : GameState) (inp : Input) (samples : List Point)
    (hd : Point) (tl : List Point)
    (halive : s.death = false) (hs : s.snake = hd :: tl)
    (happle : s.apple ∉ hd :: tl)
    (hax : 0 ≤ s.apple.x) (hax2 : s.apple.x < WIDTH)
    (hay : HEIGHT_SCORE < s.apple.y) (hay2 : s.apple.y < HEIGHT)
    (hreset : inp.reset = false) (hgrow : inp.grow = false)
    (hfatal : (movePoint hd (update_direction inp s.direction).toPoint).x < 0 ∨
              (movePoint hd (update_direction inp s.direction).toPoint).x ≥ WIDTH ∨
              (movePoint hd (update_direction inp s.direction).toPoint).y ≤ HEIGHT_SCORE ∨
              (movePoint hd (update_direction inp s.direction).toPoint).y ≥ HEIGHT ∨
              movePoint hd (update_direction inp s.direction).toPoint ∈ (hd :: tl).dropLast) :
    ∃ r, update inp samples s = .ok r ∧ r.state.death = true ∧
      r.state.score = s.score ∧ r.state.apple = s.apple := by
  obtain ⟨q, hq⟩ := Option.isSome_iff_exists.mp
    (List.getLast?_isSome.mpr (List.cons_ne_nil hd tl))
  have hne : movePoint hd (update_direction inp s.direction).toPoint ≠ s.apple := by
    rcases hfatal with h | h | h | h | h
    · intro he
      rw [he] at h
      exact absurd h (not_lt.mpr hax)
    · intro he
      rw [he] at h
      exact absurd h (not_le.mpr hax2)
    · intro he
      rw [he] at h
      exact absurd h (not_le.mpr hay)
    · intro he
      rw [he] at h
      exact absurd h (not_le.mpr hay2)
    · intro he
      exact happle (he ▸ (List.dropLast_sublist (hd :: tl)).subset h)
  have hs1 : ({ s with direction := update_direction inp s.direction } : GameState).snake = hd :: tl := hs
  have hm := update_snake_cons { s with direction := update_direction inp s.direction } hd tl hs1
  have hsnake1 : (update_snake { s with direction := update_direction inp s.direction }).snake =
      movePoint hd (update_direction inp s.direction).toPoint :: (hd :: tl).dropLast := by
    rw [hm]
  have hdeath0 : (update_snake { s with direction := update_direction inp s.direction }).death = false := by
    rw [hm]
    exact halive
  have hb : (check_death (update_snake { s with direction := update_direction inp s.direction })).death = true := by
    rw [check_death_death_iff _ _ _ hsnake1]
    rcases hfatal with h | h | h | h | h
    · exact Or.inr (Or.inl h)
    · exact Or.inr (Or.inr (Or.inr (Or.inl h)))
    · exact Or.inr (Or.inr (Or.inl h))
    · exact Or.inr (Or.inr (Or.inr (Or.inr (Or.inl h))))
    · refine Or.inr (Or.inr (Or.inr (Or.inr (Or.inr ?_))))
      intro hnd
      exact (List.nodup_cons.mp hnd).1 h
  have hcore := core_not_eaten inp samples s hd q tl true hs hq hne hb
  have hupd := update_of_core_ok inp samples s _ samples halive hreset hcore
  rw [if_neg (by rw [hgrow]; simp)] at hupd
  exact ⟨_, hupd, rfl, rfl, rfl⟩

/-- Witness for C3 at a concrete fatal tick: single cell (0, 11) heading
left runs out of bounds; the score 5 and the in-rectangle apple (20, 20)
are untouched. -/
theorem C3_fatal_tick_witness :
    ∃ r, update ⟨false, false, false, false, false, false, false⟩ []
        ⟨Dir.left, [⟨0, 11⟩], false, 5, ⟨20, 20⟩, none⟩ = .ok r ∧
      r.state.death = true ∧ r.state.score = 5 ∧ r.state.apple = ⟨20, 20⟩ :=
  C3_fatal_tick ⟨Dir.left, [⟨0, 11⟩], false, 5, ⟨20, 20⟩, none⟩
    ⟨false, false, false, false, false, false, false⟩ [] ⟨0, 11⟩ []
    rfl rfl (by decide) (by decide) (by decide) (by decide) (by decide)
    rfl rfl (Or.inl (by decide))

/-! ### Claim theorems: apple placement -/

/-- C4: after every apple placement (generate_apple is the placement used
both on reset and immediately after an apple is eaten), assuming the
placement loop terminates on the given random stream, the produced apple is
not a member of the snake and lies within the playable rectangle: x in
[0, WIDTH) and y strictly between HEIGHT_SCORE and HEIGHT.  The range
hypothesis on the samples models the randint bounds of the source:
x in [0, WIDTH - 1] and y in [HEIGHT_SCORE + 1, HEIGHT - 1], both
inclusive. -/
theorem C4_apple_placement (samples : List Point) (hd : Point) (tl : List Point)
    (a : Point) (rest : List Point)
    (hrange : ∀ p ∈ samples,
      0 ≤ p.x ∧ p.x ≤ WIDTH - 1 ∧ HEIGHT_SCORE + 1 ≤ p.y ∧ p.y ≤ HEIGHT - 1)
    (hok : generate_apple samples (hd :: tl) = .ok (a, rest)) :
    a ∉ hd :: tl ∧ 0 ≤ a.x ∧ a.x < WIDTH ∧ HEIGHT_SCORE < a.y ∧ a.y < HEIGHT := by
  obtain ⟨hnot, hmem⟩ := generate_apple_ok_spec samples hd tl a rest hok
  obtain ⟨h1, h2, h3, h4⟩ := hrange a hmem
  exact ⟨hnot, h1, by omega, by omega, by omega⟩

/-- Witness for C4 at a concrete placement: a single in-range sample
(20, 20) over the singleton snake [(5, 11)]. -/
theorem C4_apple_placement_witness :
    ((⟨20, 20⟩ : Point) ∉ [(⟨5, 11⟩ : Point)] ∧ 0 ≤ (20 : Int) ∧ (20 : Int) < WIDTH ∧
      HEIGHT_SCORE < (20 : Int) ∧ (20 : Int) < HEIGHT) :=
  C4_apple_placement [⟨20, 20⟩] ⟨5, 11⟩ [] ⟨20, 20⟩ [] (by decide) rfl

/-! ### Claim theorems: terminal dead state -/

/-- C6 counterexample: the claim says that once dead no further updates
occur until a reset.  But the debug-growth key T is handled even while
dead: from the concrete dead state below (score 3), a tick pressing only T
appends the stored popped coordinate to the body and bumps the score to 4,
with no reset involved. -/
theorem C6_counterexample :
    update ⟨false, false, false, false, false, false, true⟩ []
        ⟨Dir.right, [⟨5, 11⟩], true, 3, ⟨20, 20⟩, some ⟨4, 11⟩⟩ =
      .ok ⟨⟨Dir.right, [⟨5, 11⟩, ⟨4, 11⟩], true, 4, ⟨20, 20⟩, some ⟨4, 11⟩⟩, false, []⟩ ∧
    (4 : Nat) ≠ 3 :=
  ⟨rfl, by decide⟩

/-- C6 amended: once the game is dead, every tick that asserts neither the
reset command nor the debug-growth command leaves the whole state exactly
unchanged (body, apple coordinate and score keep their terminal values);
the debug-growth command however still appends the stored popped coordinate
and increments the score even while dead, and reset replaces the whole
state. -/
theorem C6_dead_state_frozen (s : GameState) (inp : Input) (samples : List Point)
    (hdead : s.death = true) (hreset : inp.reset = false) (hgrow : inp.grow = false) :
    update inp samples s = .ok ⟨s, inp.quit, samples⟩ := by
  rw [update_dead inp samples s hdead hreset]
  rw [if_neg (by rw [hgrow]; simp)]

/-- Witness for C6 amended at a concrete dead state with no keys held. -/
theorem C6_dead_state_frozen_witness :
    update ⟨false, false, false, false, false, false, false⟩ []
        ⟨Dir.right, [⟨5, 11⟩], true, 3, ⟨20, 20⟩, some ⟨4, 11⟩⟩ =
      .ok ⟨⟨Dir.right, [⟨5, 11⟩], true, 3, ⟨20, 20⟩, some ⟨4, 11⟩⟩, false, []⟩ :=
  C6_dead_state_frozen ⟨Dir.right, [⟨5, 11⟩], true, 3, ⟨20, 20⟩, some ⟨4, 11⟩⟩
    ⟨false, false, false, false, false, false, false⟩ [] rfl rfl rfl

/-! ### Claim theorems: reset versus quit -/

/-- C7 counterexample: the claim says that when reset and quit are asserted
on the same tick, the tick resets rather than quitting the process.  In the
source, pyxel.quit() is invoked before the reset branch and nothing cancels
it, so the engine still terminates the game after the frame.  Concretely:
from a dead state with both keys held, the tick result carries the fresh
reset state but quitRequested = true (pyxel.quit was invoked). -/
theorem C7_counterexample :
    update ⟨false, false, false, false, true, true, false⟩ [⟨30, 30⟩]
        ⟨Dir.right, [⟨5, 11⟩], true, 0, ⟨20, 20⟩, some ⟨4, 11⟩⟩ =
      .ok ⟨⟨Dir.right, [START], false, 0, ⟨30, 30⟩, some ⟨4, 11⟩⟩, true, []⟩ :=
  rfl

/-- C7 amended: on every tick — taken from any state, alive or dead — on
which both reset and quit are asserted, the reset is performed: whenever
the tick completes, the resulting state is the fresh Alive reset state
(direction RIGHT, single START cell, death flag clear, score 0, apple off
the start cell).  But quit does not lose: pyxel.quit has already been
invoked on that same tick (quitRequested is true) and the reset does not
cancel it, so the engine still terminates the game after the frame.
Stated with the orthogonal debug-growth command not asserted, which would
otherwise append one extra cell to the fresh state. -/
theorem C7_reset_and_quit (s : GameState) (inp : Input) (samples : List Point) (r : TickResult)
    (hreset : inp.reset = true) (hquit : inp.quit = true) (hgrow : inp.grow = false)
    (hok : update inp samples s = .ok r) :
    r.quitRequested = true ∧ r.state.direction = Dir.right ∧ r.state.snake = [START] ∧
      r.state.death = false ∧ r.state.score = 0 ∧ r.state.apple ∉ [START] := by
  by_cases hdead : s.death = true
  · rcases hres : reset samples s.popped_point with e2 | ⟨s2, rest3⟩
    · rw [update_dead_reset_error inp samples s e2 hdead hreset hres] at hok
      exact absurd hok (by simp)
    · rw [update_dead_reset inp samples s s2 rest3 hdead hreset hres] at hok
      rw [if_neg (by rw [hgrow]; simp)] at hok
      obtain ⟨hdir, hsn, hde, hsc, hap, -⟩ := reset_ok_spec samples s.popped_point s2 rest3 hres
      rw [← Except.ok.inj hok]
      exact ⟨hquit, hdir, hsn, hde, hsc, hap⟩
  · have halive : s.death = false := bool_eq_false hdead
    rcases hcore : check_apple samples (check_death (update_snake
        { s with direction := update_direction inp s.direction })) with e2 | ⟨s1, samples1⟩
    · rw [update_core_error inp samples s e2 halive hcore] at hok
      exact absurd hok (by simp)
    · rcases hres : reset samples1 s1.popped_point with e3 | ⟨s2, rest3⟩
      · rw [update_of_core_ok_reset_error inp samples s s1 samples1 e3 halive hreset hcore hres] at hok
        exact absurd hok (by simp)
      · rw [update_of_core_ok_reset inp samples s s1 s2 samples1 rest3 halive hreset hcore hres] at hok
        rw [if_neg (by rw [hgrow]; simp)] at hok
        obtain ⟨hdir, hsn, hde, hsc, hap, -⟩ := reset_ok_spec samples1 s1.popped_point s2 rest3 hres
        rw [← Except.ok.inj hok]
        exact ⟨hquit, hdir, hsn, hde, hsc, hap⟩

/-- Witness for C7 amended at a concrete alive state with both keys held:
the tick moves the snake, then resets, and the quit request stands. -/
theorem C7_reset_and_quit_witness :
    ((⟨⟨Dir.right, [START], false, 0, ⟨30, 30⟩, some START⟩, true, []⟩ : TickResult).quitRequested = true ∧
     (⟨⟨Dir.right, [START], false, 0, ⟨30, 30⟩, some START⟩, true, []⟩ : TickResult).state.direction = Dir.right ∧
     (⟨⟨Dir.right, [START], false, 0, ⟨30, 30⟩, some START⟩, true, []⟩ : TickResult).state.snake = [START] ∧
     (⟨⟨Dir.right, [START], false, 0, ⟨30, 30⟩, some START⟩, true, []⟩ : TickResult).state.death = false ∧
     (⟨⟨Dir.right, [START], false, 0, ⟨30, 30⟩, some START⟩, true, []⟩ : TickResult).state.score = 0 ∧
     (⟨⟨Dir.right, [START], false, 0, ⟨30, 30⟩, some START⟩, true, []⟩ : TickResult).state.apple ∉ [START]) :=
  C7_reset_and_quit ⟨Dir.right, [⟨5, 11⟩], false, 7, ⟨20, 20⟩, some ⟨4, 11⟩⟩
    ⟨false, false, false, false, true, true, false⟩ [⟨30, 30⟩]
    ⟨⟨Dir.right, [START], false, 0, ⟨30, 30⟩, some START⟩, true, []⟩ rfl rfl rfl rfl

/-! ### Claim theorems: the apple stays off the body -/

/-- One alive tick without the reset command keeps the apple off the body
and the body non-empty. -/
lemma alive_tick_preserves (s : GameState) (inp : Input) (samples : List Point) (r : TickResult)
    (happle : s.apple ∉ s.snake) (hne : s.snake ≠ [])
    (halive : s.death = false) (hreset : inp.reset = false)
    (hok : update inp samples s = .ok r) :
    r.state.apple ∉ r.state.snake ∧ r.state.snake ≠ [] := by
  obtain ⟨hd, tl, hs⟩ : ∃ hd tl, s.snake = hd :: tl := by
    cases hsn : s.snake with
    | nil => exact absurd hsn hne
    | cons a b => exact ⟨a, b, rfl⟩
  obtain ⟨q, hq⟩ := Option.isSome_iff_exists.mp
    (List.getLast?_isSome.mpr (List.cons_ne_nil hd tl))
  obtain ⟨s1, samples1, hcases, hpp, hpost⟩ :=
    update_alive_cases s inp samples r hd q tl halive hs hq hok
  rcases hpost with ⟨-, hgr⟩ | ⟨s2, rest3, hrt, -⟩
  swap
  · rw [hreset] at hrt
    cases hrt
  have hqmem : q ∈ hd :: tl := mem_of_getLast?_eq (hd :: tl) q hq
  rw [hs] at happle
  rcases hcases with ⟨heat, hs1, -⟩ | ⟨a, rest2, heat, hg, hs1, -⟩
  · subst hs1
    have hnotnew : s.apple ∉
        movePoint hd (update_direction inp s.direction).toPoint :: (hd :: tl).dropLast := by
      intro hmem
      rcases List.mem_cons.mp hmem with he | hmem2
      · exact heat he.symm
      · exact happle ((List.dropLast_sublist (hd :: tl)).subset hmem2)
    rcases hgr with ⟨-, hr⟩ | ⟨-, hr⟩ <;> subst hr
    · exact ⟨hnotnew, List.cons_ne_nil _ _⟩
    · dsimp only
      refine ⟨?_, by simp⟩
      intro hmem
      rcases List.mem_append.mp hmem with h1 | h2
      · exact hnotnew h1
      · exact happle ((List.mem_singleton.mp h2) ▸ hqmem)
  · subst hs1
    rw [List.cons_append] at hg
    obtain ⟨hnot, -⟩ := generate_apple_ok_spec samples
      (movePoint hd (update_direction inp s.direction).toPoint)
      ((hd :: tl).dropLast ++ [q]) a rest2 hg
    rcases hgr with ⟨-, hr⟩ | ⟨-, hr⟩ <;> subst hr
    · dsimp only
      refine ⟨?_, by simp⟩
      rw [List.cons_append]
      exact hnot
    · dsimp only
      refine ⟨?_, by simp⟩
      intro hmem
      rcases List.mem_append.mp hmem with h1 | h2
      · rw [List.cons_append] at h1
        exact hnot h1
      · refine hnot ?_
        rw [List.mem_singleton.mp h2]
        exact List.mem_cons_of_mem _ (List.mem_append.mpr (Or.inr (List.mem_singleton.mpr rfl)))

lemma aliveReachable_inv (s : GameState) (h : AliveReachable s) :
    s.apple ∉ s.snake ∧ s.snake ≠ [] := by
  induction h with
  | start samples popped s rest hres =>
      obtain ⟨-, hsn, -, -, hap, -⟩ := reset_ok_spec samples popped s rest hres
      rw [hsn]
      exact ⟨hap, by simp⟩
  | step s inp samples r hreach halive hreset hok ih =>
      exact alive_tick_preserves s inp samples r ih.1 ih.2 halive hreset hok

/-- C9 counterexample: the claim states the apple is off the body in every
state reachable from a reset by ticks taken while alive.  The concrete
chain below refutes it: start from a reset, take one plain alive tick,
then one alive tick asserting reset and debug-growth together.  The second
tick runs the movement core (popping the cell (6, 11)), resets (placing
the apple at the sampled cell (6, 11), which the placement only checks
against the start cell), and then re-appends the stale popped cell — so
the run, made only of ticks evaluated while alive, ends in an alive state
whose apple (6, 11) lies on the body. -/
theorem C9_counterexample :
    reset [⟨20, 20⟩] none =
      .ok (⟨Dir.right, [START], false, 0, ⟨20, 20⟩, none⟩, []) ∧
    (⟨Dir.right, [START], false, 0, ⟨20, 20⟩, none⟩ : GameState).death = false ∧
    update ⟨false, false, false, false, false, false, false⟩ []
        ⟨Dir.right, [START], false, 0, ⟨20, 20⟩, none⟩ =
      .ok ⟨⟨Dir.right, [⟨6, 11⟩], false, 0, ⟨20, 20⟩, some START⟩, false, []⟩ ∧
    (⟨Dir.right, [⟨6, 11⟩], false, 0, ⟨20, 20⟩, some START⟩ : GameState).death = false ∧
    update ⟨false, false, false, false, false, true, true⟩ [⟨6, 11⟩]
        ⟨Dir.right, [⟨6, 11⟩], false, 0, ⟨20, 20⟩, some START⟩ =
      .ok ⟨⟨Dir.right, [START, ⟨6, 11⟩], false, 1, ⟨6, 11⟩, some ⟨6, 11⟩⟩, false, []⟩ ∧
    (⟨Dir.right, [START, ⟨6, 11⟩], false, 1, ⟨6, 11⟩, some ⟨6, 11⟩⟩ : GameState).death = false ∧
    (⟨Dir.right, [START, ⟨6, 11⟩], false, 1, ⟨6, 11⟩, some ⟨6, 11⟩⟩ : GameState).apple ∈
      (⟨Dir.right, [START, ⟨6, 11⟩], false, 1, ⟨6, 11⟩, some ⟨6, 11⟩⟩ : GameState).snake :=
  ⟨rfl, rfl, rfl, rfl, rfl, rfl, by decide⟩

/-- C9 amended: in every state reachable from a reset by ticks taken while
alive that do not assert the reset command, the apple coordinate is
distinct from every coordinate of the snake body — not only immediately
after placement but at the start and end of every such tick (the
reachability relation assumes the placement loops terminated on the
supplied sample streams).  Ticks asserting reset mid-run are excluded
because their debug-growth branch can re-append a coordinate popped before
the mid-tick reset onto the freshly placed apple. -/
theorem C9_apple_off_body (s : GameState) (h : AliveReachable s) :
    s.apple ∉ s.snake :=
  (aliveReachable_inv s h).1

/-- Witness for C9 at the concrete reset state produced by the sample
stream [(20, 20)]. -/
theorem C9_apple_off_body_witness : (⟨20, 20⟩ : Point) ∉ [START] :=
  C9_apple_off_body ⟨Dir.right, [START], false, 0, ⟨20, 20⟩, none⟩
    (AliveReachable.start [⟨20, 20⟩] none ⟨Dir.right, [START], false, 0, ⟨20, 20⟩, none⟩ [] rfl)

/-! ### Claim theorems: the popped coordinate is defined when read -/

/-- After a successful movement core, the tick can only fail for lack of
random samples, never for a missing popped coordinate. -/
lemma update_after_core_error (inp : Input) (samples samples1 : List Point)
    (s s1 : GameState) (q : Point) (e : GameError)
    (halive : s.death = false)
    (hcore : check_apple samples (check_death (update_snake
        { s with direction := update_direction inp s.direction })) = .ok (s1, samples1))
    (hpp : s1.popped_point = some q)
    (herr : update inp samples s = .error e) : e = .samplesExhausted := by
  by_cases hreset : inp.reset = true
  · rcases hres : reset samples1 (some q) with e2 | ⟨s2, rest3⟩
    · have h2 := update_of_core_ok_reset_error inp samples s s1 samples1 e2 halive hreset
        hcore (by rw [hpp]; exact hres)
      rw [h2] at herr
      exact (Except.error.inj herr) ▸ reset_error_spec samples1 (some q) e2 hres
    · have hupd := update_of_core_ok_reset inp samples s s1 s2 samples1 rest3 halive hreset
        hcore (by rw [hpp]; exact hres)
      rw [hupd] at herr
      obtain ⟨-, -, -, -, -, hpp2⟩ := reset_ok_spec samples1 (some q) s2 rest3 hres
      by_cases hgrow : inp.grow = true
      · rw [if_pos hgrow, hpp2] at herr
        dsimp only at herr
        exact absurd herr (by simp)
      · rw [if_neg hgrow] at herr
        exact absurd herr (by simp)
  · have hupd := update_of_core_ok inp samples s s1 samples1 halive (bool_eq_false hreset) hcore
    rw [hupd] at herr
    by_cases hgrow : inp.grow = true
    · rw [if_pos hgrow, hpp] at herr
      dsimp only at herr
      exact absurd herr (by simp)
    · rw [if_neg hgrow] at herr
      exact absurd herr (by simp)

/-- A tick taken from an alive state with a non-empty body can only fail
for lack of random samples. -/
lemma update_alive_error_flavor (s : GameState) (inp : Input) (samples : List Point)
    (e : GameError) (hd q : Point) (tl : List Point)
    (halive : s.death = false) (hs : s.snake = hd :: tl)
    (hq : (hd :: tl).getLast? = some q)
    (herr : update inp samples s = .error e) : e = .samplesExhausted := by
  by_cases heat : movePoint hd (update_direction inp s.direction).toPoint = s.apple
  · rcases hg : generate_apple samples
        ((movePoint hd (update_direction inp s.direction).toPoint :: (hd :: tl).dropLast) ++ [q]) with
      e2 | ⟨a, rest2⟩
    · have hcoree := core_eaten_error inp samples s hd q tl e2 hs hq heat hg
      have h2 := update_core_error inp samples s e2 halive hcoree
      rw [h2] at herr
      exact (Except.error.inj herr) ▸
        generate_apple_error_spec samples
          ((movePoint hd (update_direction inp s.direction).toPoint :: (hd :: tl).dropLast) ++ [q]) e2 hg
    · have hcore := core_eaten_ok inp samples s hd q a tl rest2 _ hs hq heat rfl hg
      exact update_after_core_error inp samples rest2 s _ q e halive hcore rfl herr
  · have hcore := core_not_eaten inp samples s hd q tl _ hs hq heat rfl
    exact update_after_core_error inp samples samples s _ q e halive hcore rfl herr

/-- A tick taken from a dead state whose popped coordinate is stored can
only fail for lack of random samples. -/
lemma update_dead_error_flavor (s : GameState) (inp : Input) (samples : List Point)
    (e : GameError) (p : Point)
    (hdead : s.death = true) (hp : s.popped_point = some p)
    (herr : update inp samples s = .error e) : e = .samplesExhausted := by
  by_cases hreset : inp.reset = true
  · rcases hres : reset samples s.popped_point with e2 | ⟨s2, rest3⟩
    · have h2 := update_dead_reset_error inp samples s e2 hdead hreset hres
      rw [h2] at herr
      exact (Except.error.inj herr) ▸ reset_error_spec samples s.popped_point e2 hres
    · have hupd := update_dead_reset inp samples s s2 rest3 hdead hreset hres
      rw [hupd] at herr
      obtain ⟨-, -, -, -, -, hpp2⟩ := reset_ok_spec samples s.popped_point s2 rest3 hres
      by_cases hgrow : inp.grow = true
      · rw [if_pos hgrow, hpp2, hp] at herr
        dsimp only at herr
        exact absurd herr (by simp)
      · rw [if_neg hgrow] at herr
        exact absurd herr (by simp)
  · have hupd := update_dead inp samples s hdead (bool_eq_false hreset)
    rw [hupd] at herr
    by_cases hgrow : inp.grow = true
    · rw [if_pos hgrow, hp] at herr
      dsimp only at herr
      exact absurd herr (by simp)
    · rw [if_neg hgrow] at herr
      exact absurd herr (by simp)

lemma update_error_flavor (s : GameState) (inp : Input) (samples : List Point) (e : GameError)
    (hsn : s.snake ≠ []) (hpop : s.death = true → s.popped_point.isSome = true)
    (herr : update inp samples s = .error e) : e = .samplesExhausted := by
  by_cases hdead : s.death = true
  · obtain ⟨p, hp⟩ := Option.isSome_iff_exists.mp (hpop hdead)
    exact update_dead_error_flavor s inp samples e p hdead hp herr
  · obtain ⟨hd, tl, hs⟩ : ∃ hd tl, s.snake = hd :: tl := by
      cases hsn2 : s.snake with
      | nil => exact absurd hsn2 hsn
      | cons a b => exact ⟨a, b, rfl⟩
    obtain ⟨q, hq⟩ := Option.isSome_iff_exists.mp
      (List.getLast?_isSome.mpr (List.cons_ne_nil hd tl))
    exact update_alive_error_flavor s inp samples e hd q tl (bool_eq_false hdead) hs hq herr

/-- One successful tick preserves the invariant that a dead state stores a
popped coordinate and the body is non-empty. -/
lemma tick_inv_preserved (s : GameState) (inp : Input) (samples : List Point) (r : TickResult)
    (hpop : s.death = true → s.popped_point.isSome = true) (hsn : s.snake ≠ [])
    (hok : update inp samples s = .ok r) :
    (r.state.death = true → r.state.popped_point.isSome = true) ∧ r.state.snake ≠ [] := by
  by_cases hdead : s.death = true
  · obtain ⟨p, hp⟩ := Option.isSome_iff_exists.mp (hpop hdead)
    by_cases hreset : inp.reset = true
    · rcases hres : reset samples s.popped_point with e2 | ⟨s2, rest3⟩
      · rw [update_dead_reset_error inp samples s e2 hdead hreset hres] at hok
        exact absurd hok (by simp)
      · rw [update_dead_reset inp samples s s2 rest3 hdead hreset hres] at hok
        obtain ⟨-, hsn2, hde2, -, -, hpp2⟩ := reset_ok_spec samples s.popped_point s2 rest3 hres
        by_cases hgrow : inp.grow = true
        · rw [if_pos hgrow, hpp2, hp] at hok
          dsimp only at hok
          rw [← Except.ok.inj hok]
          dsimp only
          exact ⟨fun _ => rfl, by simp⟩
        · rw [if_neg hgrow] at hok
          rw [← Except.ok.inj hok]
          dsimp only
          refine ⟨fun hdd => ?_, by rw [hsn2]; simp⟩
          rw [hde2] at hdd
          cases hdd
    · rw [update_dead inp samples s hdead (bool_eq_false hreset)] at hok
      by_cases hgrow : inp.grow = true
      · rw [if_pos hgrow, hp] at hok
        dsimp only at hok
        rw [← Except.ok.inj hok]
        dsimp only
        exact ⟨fun _ => rfl, by simp⟩
      · rw [if_neg hgrow] at hok
        rw [← Except.ok.inj hok]
        exact ⟨hpop, hsn⟩
  · obtain ⟨hd, tl, hs⟩ : ∃ hd tl, s.snake = hd :: tl := by
      cases hsn2 : s.snake with
      | nil => exact absurd hsn2 hsn
      | cons a b => exact ⟨a, b, rfl⟩
    obtain ⟨q, hq⟩ := Option.isSome_iff_exists.mp
      (List.getLast?_isSome.mpr (List.cons_ne_nil hd tl))
    obtain ⟨s1, samples1, hcases, hpp, hpost⟩ :=
      update_alive_cases s inp samples r hd q tl (bool_eq_false hdead) hs hq hok
    rcases hpost with ⟨-, hgr⟩ | ⟨s2, rest3, -, hres, hgr⟩
    · rcases hgr with ⟨-, hr⟩ | ⟨-, hr⟩ <;> subst hr
      · refine ⟨fun _ => by rw [hpp]; rfl, ?_⟩
        rcases hcases with ⟨-, hs1, -⟩ | ⟨a, rest2, -, -, hs1, -⟩ <;> subst hs1 <;> simp
      · dsimp only
        exact ⟨fun _ => by rw [hpp]; rfl, by simp⟩
    · obtain ⟨-, hsn2, hde2, -, -, hpp2⟩ := reset_ok_spec samples1 (some q) s2 rest3 hres
      rcases hgr with ⟨-, hr⟩ | ⟨-, hr⟩ <;> subst hr
      · exact ⟨fun _ => by rw [hpp2]; rfl, by rw [hsn2]; simp⟩
      · dsimp only
        exact ⟨fun _ => by rw [hpp2]; rfl, by simp⟩

lemma reachable_inv (s : GameState) (h : Reachable s) :
    (s.death = true → s.popped_point.isSome = true) ∧ s.snake ≠ [] := by
  induction h with
  | start samples popped s rest hres =>
      obtain ⟨-, hsn, hde, -, -, -⟩ := reset_ok_spec samples popped s rest hres
      refine ⟨fun hdd => ?_, by rw [hsn]; simp⟩
      rw [hde] at hdd
      cases hdd
  | step s inp samples r hreach hok ih =>
      exact tick_inv_preserved s inp samples r ih.1 ih.2 hok

/-- C10: on every reachable state, the stored popped coordinate is defined
before the debug-growth handler reads it, so a tick never fails for a
missing popped coordinate (its only failure mode is running out of random
samples); while dead with the debug-growth command asserted the tick
re-appends the stored coordinate — one popped in an earlier phase of the
game — and a reset carries the stored popped coordinate over unchanged. -/
theorem C10_popped_defined (s : GameState) (inp : Input) (samples : List Point)
    (h : Reachable s) :
    (∀ e, update inp samples s = .error e → e = .samplesExhausted) ∧
    (∀ p r, s.death = true → inp.reset = false → inp.grow = true → s.popped_point = some p →
       update inp samples s = .ok r → r.state.snake = s.snake ++ [p]) ∧
    (∀ samples2 popped st rest, reset samples2 popped = .ok (st, rest) →
       st.popped_point = popped) := by
  obtain ⟨hpop, hsn⟩ := reachable_inv s h
  refine ⟨fun e he => update_error_flavor s inp samples e hsn hpop he, ?_, ?_⟩
  · intro p r hdead hreset hgrow hp hok
    rw [update_dead inp samples s hdead hreset] at hok
    rw [if_pos hgrow, hp] at hok
    dsimp only at hok
    rw [← Except.ok.inj hok]
  · intro samples2 popped st rest hres
    exact (reset_ok_spec samples2 popped st rest hres).2.2.2.2.2

/-- Witness for C10 at the concrete reset state produced by the sample
stream [(20, 20)], with no keys held and an empty sample stream for the
tick. -/
theorem C10_popped_defined_witness :
    (∀ e, update ⟨false, false, false, false, false, false, false⟩ []
        ⟨Dir.right, [START], false, 0, ⟨20, 20⟩, none⟩ = .error e → e = .samplesExhausted) ∧
    (∀ p r, (⟨Dir.right, [START], false, 0, ⟨20, 20⟩, none⟩ : GameState).death = true →
       (⟨false, false, false, false, false, false, false⟩ : Input).reset = false →
       (⟨false, false, false, false, false, false, false⟩ : Input).grow = true →
       (⟨Dir.right, [START], false, 0, ⟨20, 20⟩, none⟩ : GameState).popped_point = some p →
       update ⟨false, false, false, false, false, false, false⟩ []
         ⟨Dir.right, [START], false, 0, ⟨20, 20⟩, none⟩ = .ok r →
       r.state.snake = [START] ++ [p]) ∧
    (∀ samples2 popped st rest, reset samples2 popped = .ok (st, rest) →
       st.popped_point = popped) :=
  C10_popped_defined ⟨Dir.right, [START], false, 0, ⟨20, 20⟩, none⟩
    ⟨false, false, false, false, false, false, false⟩ []
    (Reachable.start [⟨20, 20⟩] none ⟨Dir.right, [START], false, 0, ⟨20, 20⟩, none⟩ [] rfl)

end Pynake
